import Mathlib

/-!
Verification of the cookie-modifier middleware (`main.go`).

Strings are modelled as `List Char` (`Str`); the Go standard-library string
operations used by the program (`strings.HasPrefix`, `strings.Contains`,
`strings.Replace` with count 1, `strings.Join`) are embedded as executable
list functions below.  HTTP cookies, the plugin configuration, and the two
transformation passes (`transformRequestCookies`, `transformResponseCookies`)
are translated directly from the source.
-/

set_option autoImplicit false

abbrev Str := List Char

/-- Embedding of Go `strings.HasPrefix s p` (arguments: pattern, string). -/
def isPrefixOf : Str → Str → Bool
  | [], _ => true
  | _ :: _, [] => false
  | p :: ps, c :: cs => p == c && isPrefixOf ps cs

/-- Embedding of Go `strings.Contains s pat`: `pat` occurs somewhere in `s`. -/
def containsSub : Str → Str → Bool
  | [], pat => isPrefixOf pat []
  | c :: t, pat => isPrefixOf pat (c :: t) || containsSub t pat

/-- Embedding of Go `strings.Replace s pat rep 1`: replace the first
occurrence of `pat` in `s` by `rep`; `s` unchanged when `pat` is absent. -/
def replaceFirst : Str → Str → Str → Str
  | [], pat, rep => if isPrefixOf pat [] then rep else []
  | c :: t, pat, rep =>
    if isPrefixOf pat (c :: t) then rep ++ (c :: t).drop pat.length
    else c :: replaceFirst t pat rep

theorem isPrefixOf_append (p s : Str) : isPrefixOf p (p ++ s) = true := by
  induction p with
  | nil => rfl
  | cons c ps ih => simp [isPrefixOf, ih]

theorem isPrefixOf_eq_append {p s : Str} (h : isPrefixOf p s = true) :
    s = p ++ s.drop p.length := by
  induction p generalizing s with
  | nil => simp
  | cons c ps ih =>
    cases s with
    | nil => simp [isPrefixOf] at h
    | cons d t =>
      simp only [isPrefixOf, Bool.and_eq_true, beq_iff_eq] at h
      obtain ⟨hc, hp⟩ := h
      subst hc
      simpa [List.length_cons, List.drop_succ_cons] using congrArg (c :: ·) (ih hp)

theorem isPrefixOf_iff {p s : Str} : isPrefixOf p s = true ↔ ∃ t, s = p ++ t := by
  constructor
  · intro h
    exact ⟨s.drop p.length, isPrefixOf_eq_append h⟩
  · rintro ⟨t, rfl⟩
    exact isPrefixOf_append p t

theorem containsSub_iff {s pat : Str} :
    containsSub s pat = true ↔ ∃ a b, s = a ++ pat ++ b := by
  induction s with
  | nil =>
    simp only [containsSub]
    constructor
    · intro h
      cases pat with
      | nil => exact ⟨[], [], rfl⟩
      | cons c t => simp [isPrefixOf] at h
    · rintro ⟨a, b, hab⟩
      have ha : a = [] ∧ pat ++ b = [] := List.append_eq_nil.mp (by simpa using hab.symm)
      have hp : pat = [] := (List.append_eq_nil.mp ha.2).1
      subst hp
      rfl
  | cons c t ih =>
    simp only [containsSub, Bool.or_eq_true, ih, isPrefixOf_iff]
    constructor
    · rintro (⟨u, hu⟩ | ⟨a, b, hab⟩)
      · exact ⟨[], u, by simpa using hu⟩
      · exact ⟨c :: a, b, by simp [hab]⟩
    · rintro ⟨a, b, hab⟩
      cases a with
      | nil => exact Or.inl ⟨b, by simpa using hab⟩
      | cons x xs =>
        simp only [List.cons_append, List.cons.injEq] at hab
        exact Or.inr ⟨xs, b, hab.2⟩

theorem containsSub_middle (a pat b : Str) : containsSub (a ++ pat ++ b) pat = true :=
  containsSub_iff.mpr ⟨a, b, rfl⟩

theorem containsSub_append_left {s pat : Str} (x : Str) (h : containsSub s pat = true) :
    containsSub (s ++ x) pat = true := by
  obtain ⟨a, b, hab⟩ := containsSub_iff.mp h
  exact containsSub_iff.mpr ⟨a, b ++ x, by simp [hab]⟩

theorem replaceFirst_of_not_contains {s pat rep : Str} (h : containsSub s pat = false) :
    replaceFirst s pat rep = s := by
  induction s with
  | nil =>
    simp only [containsSub] at h
    simp [replaceFirst, h]
  | cons c t ih =>
    simp only [containsSub, Bool.or_eq_false_iff] at h
    simp [replaceFirst, h.1, ih h.2]

theorem replaceFirst_spec {s pat : Str} (rep : Str) (h : containsSub s pat = true) :
    ∃ a b, s = a ++ pat ++ b ∧ replaceFirst s pat rep = a ++ rep ++ b ∧
      ∀ a2 b2, s = a2 ++ pat ++ b2 → a.length ≤ a2.length := by
  induction s with
  | nil =>
    have hp : pat = [] := by
      cases pat with
      | nil => rfl
      | cons c t => simp [containsSub, isPrefixOf] at h
    subst hp
    exact ⟨[], [], by simp, by simp [replaceFirst, isPrefixOf], fun a2 b2 _ => Nat.zero_le _⟩
  | cons c t ih =>
    by_cases hpre : isPrefixOf pat (c :: t) = true
    · obtain ⟨u, hu⟩ := isPrefixOf_iff.mp hpre
      refine ⟨[], u, by simpa using hu, ?_, fun a2 b2 _ => Nat.zero_le _⟩
      have hdrop : (c :: t).drop pat.length = u := by
        rw [hu]
        exact List.drop_left pat u
      rw [show replaceFirst (c :: t) pat rep = rep ++ (c :: t).drop pat.length from by
        simp [replaceFirst, hpre]]
      simp [hdrop]
    · have hb : isPrefixOf pat (c :: t) = false := by
        simpa using hpre
      have ht : containsSub t pat = true := by
        have hh := h
        simp only [containsSub, hb, Bool.false_or] at hh
        exact hh
      obtain ⟨a, b, hab, hrep, hmin⟩ := ih ht
      refine ⟨c :: a, b, by simp [hab], by simp [replaceFirst, hb, hrep], ?_⟩
      rintro a2 b2 h2
      cases a2 with
      | nil =>
        exfalso
        have hcon : isPrefixOf pat (c :: t) = true :=
          isPrefixOf_iff.mpr ⟨b2, by simpa using h2⟩
        rw [hcon] at hb
        simp at hb
      | cons x xs =>
        simp only [List.cons_append, List.cons.injEq] at h2
        simpa [List.length_cons] using Nat.succ_le_succ (hmin xs b2 h2.2)

/-- Plugin configuration, translated field for field from `Config` in `main.go`. -/
structure Config where
  sourceCookieName : Str
  targetCookieName : Str
  useDynamicDomain : Bool
  secure : Bool
  httpOnly : Bool
  sameSite : Str
  path : Str
  debug : Bool

/-- Default configuration built by `CreateConfig` in `main.go`. -/
def CreateConfig : Config :=
  { sourceCookieName := "flowise_token".data
    targetCookieName := "simple_token".data
    useDynamicDomain := true
    secure := false
    httpOnly := false
    sameSite := "Lax".data
    path := "/".data
    debug := false }

/-- An `http.Cookie` as the program uses it: name, value, and the `Path` and
`Domain` attributes set on the transformed request cookie (empty string when
unset, matching Go zero values). -/
structure Cookie where
  name : Str
  value : Str
  path : Str
  domain : Str

/-- The loop of `transformRequestCookies` (main.go lines 96-105): a left fold
over the parsed cookies that collects non-matching cookies in order and keeps
the last cookie whose name equals `src`. -/
def scanRequestCookies (src : Str) (cookies : List Cookie) : List Cookie × Option Cookie :=
  cookies.foldl
    (fun acc c => if c.name == src then (acc.1, some c) else (acc.1 ++ [c], acc.2))
    ([], none)

/-- The `Domain` value given to the transformed request cookie
(main.go lines 116-124): the request host when `useDynamicDomain` is enabled
and the host is non-empty, otherwise left empty. -/
def requestCookieDomain (cfg : Config) (host : Str) : Str :=
  if cfg.useDynamicDomain && !(host == []) then host else []

/-- Embedding of `transformRequestCookies` (main.go lines 86-140) acting on the
parsed entries of the request `Cookie` header.  Returns the rebuilt cookie list
when the source cookie was found, and `none` when the request is left
untouched. -/
def transformRequestCookies (cfg : Config) (host : Str) (cookies : List Cookie) :
    Option (List Cookie) :=
  match scanRequestCookies cfg.sourceCookieName cookies with
  | (_, none) => none
  | (newCookies, some fc) =>
    some (newCookies ++
      [⟨cfg.targetCookieName, fc.value, cfg.path, requestCookieDomain cfg host⟩])

/-- Serialization of one cookie as `fmt.Sprintf("%s=%s", name, value)`
(main.go line 131). -/
def serializeCookiePair (c : Cookie) : Str := c.name ++ ('=' :: c.value)

/-- Serialization of the rebuilt cookie list: pairs joined by `"; "`
(main.go line 133). -/
def serializeCookies (cs : List Cookie) : Str :=
  List.intercalate "; ".data (cs.map serializeCookiePair)

/-- The request `Cookie` header after the request phase: rewritten to the
serialized rebuilt list when the source cookie was found, byte-identical
otherwise (main.go lines 108 and 133). -/
def requestCookieHeaderAfter (cfg : Config) (host : Str) (header : Str)
    (cookies : List Cookie) : Str :=
  match transformRequestCookies cfg host cookies with
  | none => header
  | some ncs => serializeCookies ncs

theorem getLastQ_cons (a : Cookie) (l : List Cookie) :
    (a :: l).getLast? = (match l.getLast? with | some x => some x | none => some a) := by
  induction l generalizing a with
  | nil => rfl
  | cons b t ih =>
    rw [List.getLast?_cons_cons, ih b]
    cases ht : t.getLast? with
    | none => simp
    | some x => simp

theorem scanRequestCookies_go_fst (src : Str) (cs : List Cookie) :
    ∀ acc : List Cookie × Option Cookie,
      (cs.foldl
        (fun acc c => if c.name == src then (acc.1, some c) else (acc.1 ++ [c], acc.2))
        acc).1 = acc.1 ++ cs.filter (fun c => !(c.name == src)) := by
  induction cs with
  | nil => intro acc; simp
  | cons c t ih =>
    intro acc
    by_cases hc : c.name == src
    · simp only [List.foldl_cons, hc, if_pos, List.filter_cons]
      rw [ih]
      simp [hc]
    · simp only [List.foldl_cons, if_neg hc, List.filter_cons]
      rw [ih]
      simp [hc, List.append_assoc]

theorem scanRequestCookies_go_snd (src : Str) (cs : List Cookie) :
    ∀ acc : List Cookie × Option Cookie,
      (cs.foldl
        (fun acc c => if c.name == src then (acc.1, some c) else (acc.1 ++ [c], acc.2))
        acc).2 =
      (match (cs.filter (fun c => c.name == src)).getLast? with
        | some x => some x
        | none => acc.2) := by
  induction cs with
  | nil => intro acc; simp
  | cons c t ih =>
    intro acc
    by_cases hc : c.name == src
    · simp only [List.foldl_cons, hc, if_pos, List.filter_cons]
      rw [ih]
      rw [getLastQ_cons]
      cases ht : (t.filter (fun c => c.name == src)).getLast? with
      | none => simp
      | some x => simp
    · simp only [List.foldl_cons, if_neg hc]
      rw [ih]
      rw [show (List.filter (fun c => c.name == src) (c :: t)) =
        List.filter (fun c => c.name == src) t from by simp [List.filter_cons, hc]]

theorem scanRequestCookies_fst (src : Str) (cs : List Cookie) :
    (scanRequestCookies src cs).1 = cs.filter (fun c => !(c.name == src)) := by
  rw [scanRequestCookies, scanRequestCookies_go_fst]
  simp

theorem scanRequestCookies_snd (src : Str) (cs : List Cookie) :
    (scanRequestCookies src cs).2 = (cs.filter (fun c => c.name == src)).getLast? := by
  rw [scanRequestCookies, scanRequestCookies_go_snd]
  cases h : (cs.filter (fun c => c.name == src)).getLast? with
  | none => simp
  | some x => simp

theorem getLastQ_of_ne_nil {l : List Cookie} (h : l ≠ []) : ∃ x, l.getLast? = some x := by
  cases l with
  | nil => exact absurd rfl h
  | cons a t =>
    rw [getLastQ_cons]
    cases t.getLast? with
    | none => exact ⟨a, rfl⟩
    | some x => exact ⟨x, rfl⟩

theorem transformRequest_found_aux (cfg : Config) (host : Str) (cookies : List Cookie)
    (h : ∃ c ∈ cookies, c.name = cfg.sourceCookieName) :
    ∃ fc, (cookies.filter (fun c => c.name == cfg.sourceCookieName)).getLast? = some fc ∧
      transformRequestCookies cfg host cookies =
        some (cookies.filter (fun c => !(c.name == cfg.sourceCookieName)) ++
          [Cookie.mk cfg.targetCookieName fc.value cfg.path (requestCookieDomain cfg host)]) := by
  obtain ⟨c, hc, hname⟩ := h
  have hne : cookies.filter (fun c => c.name == cfg.sourceCookieName) ≠ [] := by
    intro hnil
    have hmem : c ∈ cookies.filter (fun c => c.name == cfg.sourceCookieName) :=
      List.mem_filter.mpr ⟨hc, by simp [hname]⟩
    rw [hnil] at hmem
    simp at hmem
  obtain ⟨fc, hfc⟩ := getLastQ_of_ne_nil hne
  have hsc : scanRequestCookies cfg.sourceCookieName cookies =
      (cookies.filter (fun c => !(c.name == cfg.sourceCookieName)), some fc) := by
    have h1 := scanRequestCookies_fst cfg.sourceCookieName cookies
    have h2 := scanRequestCookies_snd cfg.sourceCookieName cookies
    rw [hfc] at h2
    rw [← h1, ← h2]
  refine ⟨fc, hfc, ?_⟩
  simp only [transformRequestCookies]
  rw [hsc]

/-- C1: when the request's `Cookie` header entries contain at least one entry
named `sourceCookieName`, `transformRequestCookies` keeps all other entries
unchanged in their original order, removes every source-named entry (keeping
only the value of the last one encountered during the scan), appends one new
entry named `targetCookieName` carrying that value after the preserved set,
and the `Cookie` header is replaced by the entries serialized as `name=value`
pairs joined by `"; "`. -/
theorem transformRequestCookies_found (cfg : Config) (host header : Str)
    (cookies : List Cookie)
    (h : ∃ c ∈ cookies, c.name = cfg.sourceCookieName) :
    ∃ fc, (cookies.filter (fun c => c.name == cfg.sourceCookieName)).getLast? = some fc ∧
      transformRequestCookies cfg host cookies =
        some (cookies.filter (fun c => !(c.name == cfg.sourceCookieName)) ++
          [Cookie.mk cfg.targetCookieName fc.value cfg.path (requestCookieDomain cfg host)]) ∧
      requestCookieHeaderAfter cfg host header cookies =
        serializeCookies (cookies.filter (fun c => !(c.name == cfg.sourceCookieName)) ++
          [Cookie.mk cfg.targetCookieName fc.value cfg.path (requestCookieDomain cfg host)]) := by
  obtain ⟨fc, hfc, htr⟩ := transformRequest_found_aux cfg host cookies h
  refine ⟨fc, hfc, htr, ?_⟩
  simp only [requestCookieHeaderAfter]
  rw [htr]

/-- C1 witness: concrete request `flowise_token=abc123; other=x` under the
default configuration. -/
theorem transformRequestCookies_found_witness :
    ∃ fc,
      (([Cookie.mk "flowise_token".data "abc123".data [] [],
         Cookie.mk "other".data "x".data [] []].filter
          (fun c => c.name == CreateConfig.sourceCookieName)).getLast? = some fc) ∧
      transformRequestCookies CreateConfig "example.com".data
          [Cookie.mk "flowise_token".data "abc123".data [] [],
           Cookie.mk "other".data "x".data [] []] =
        some ([Cookie.mk "flowise_token".data "abc123".data [] [],
               Cookie.mk "other".data "x".data [] []].filter
            (fun c => !(c.name == CreateConfig.sourceCookieName)) ++
          [Cookie.mk CreateConfig.targetCookieName fc.value CreateConfig.path
            (requestCookieDomain CreateConfig "example.com".data)]) ∧
      requestCookieHeaderAfter CreateConfig "example.com".data
          "flowise_token=abc123; other=x".data
          [Cookie.mk "flowise_token".data "abc123".data [] [],
           Cookie.mk "other".data "x".data [] []] =
        serializeCookies ([Cookie.mk "flowise_token".data "abc123".data [] [],
            Cookie.mk "other".data "x".data [] []].filter
            (fun c => !(c.name == CreateConfig.sourceCookieName)) ++
          [Cookie.mk CreateConfig.targetCookieName fc.value CreateConfig.path
            (requestCookieDomain CreateConfig "example.com".data)]) :=
  transformRequestCookies_found CreateConfig "example.com".data
    "flowise_token=abc123; other=x".data
    [Cookie.mk "flowise_token".data "abc123".data [] [],
     Cookie.mk "other".data "x".data [] []]
    (by decide)

/-- C6: a request with no cookie entry named `sourceCookieName` is left
completely untouched: no rewrite is performed and the `Cookie` header is
byte-identical before and after the request phase. -/
theorem transformRequestCookies_notFound (cfg : Config) (host header : Str)
    (cookies : List Cookie)
    (h : ∀ c ∈ cookies, c.name ≠ cfg.sourceCookieName) :
    transformRequestCookies cfg host cookies = none ∧
    requestCookieHeaderAfter cfg host header cookies = header := by
  have hfil : cookies.filter (fun c => c.name == cfg.sourceCookieName) = [] := by
    rw [List.filter_eq_nil_iff]
    intro c hc
    simp [h c hc]
  have hsc : scanRequestCookies cfg.sourceCookieName cookies =
      (cookies.filter (fun c => !(c.name == cfg.sourceCookieName)), none) := by
    have h1 := scanRequestCookies_fst cfg.sourceCookieName cookies
    have h2 := scanRequestCookies_snd cfg.sourceCookieName cookies
    rw [hfil] at h2
    simp only [List.getLast?_nil] at h2
    rw [← h1, ← h2]
  have htr : transformRequestCookies cfg host cookies = none := by
    simp only [transformRequestCookies]
    rw [hsc]
  refine ⟨htr, ?_⟩
  simp only [requestCookieHeaderAfter]
  rw [htr]

/-- C6 witness: a request carrying only `other_cookie=other_value` under the
default configuration passes through byte-identically. -/
theorem transformRequestCookies_notFound_witness :
    transformRequestCookies CreateConfig "example.com".data
        [Cookie.mk "other_cookie".data "other_value".data [] []] = none ∧
    requestCookieHeaderAfter CreateConfig "example.com".data
        "other_cookie=other_value".data
        [Cookie.mk "other_cookie".data "other_value".data [] []] =
      "other_cookie=other_value".data :=
  transformRequestCookies_notFound CreateConfig "example.com".data
    "other_cookie=other_value".data
    [Cookie.mk "other_cookie".data "other_value".data [] []]
    (by decide)

/-- Configuration used by the C2 counterexample: rename cookie `s` to `t`. -/
def c2cfg : Config :=
  { CreateConfig with sourceCookieName := "s".data, targetCookieName := "t".data }

/-- C2 counterexample: a request already carrying `t=V` alongside `s=V` ends
up with two entries named `t` carrying value `V` after the transformation, so
the transformed cookie set does not contain exactly one such entry. -/
theorem transformRequestCookies_preexisting_target_counter :
    ((transformRequestCookies c2cfg "h".data
        [Cookie.mk "t".data "V".data [] [], Cookie.mk "s".data "V".data [] []]).getD
        []).countP (fun c => c.name == "t".data && c.value == "V".data) = 2 := by
  decide

/-- C2 (amended): for requests that contain a cookie named `sourceCookieName`
and carry no pre-existing entry named `targetCookieName`, the transformed
cookie set contains exactly one entry named `targetCookieName`, its value is
the value `V` of the (last) source entry, and no entry named
`sourceCookieName` remains. -/
theorem transformRequestCookies_unique_target (cfg : Config) (host : Str)
    (cookies : List Cookie)
    (h1 : ∃ c ∈ cookies, c.name = cfg.sourceCookieName)
    (h2 : ∀ c ∈ cookies, c.name ≠ cfg.targetCookieName) :
    ∃ out fc,
      transformRequestCookies cfg host cookies = some out ∧
      (cookies.filter (fun c => c.name == cfg.sourceCookieName)).getLast? = some fc ∧
      out.filter (fun c => c.name == cfg.targetCookieName) =
        [Cookie.mk cfg.targetCookieName fc.value cfg.path (requestCookieDomain cfg host)] ∧
      out.filter (fun c => c.name == cfg.sourceCookieName) = [] := by
  obtain ⟨fc, hfc, htr⟩ := transformRequest_found_aux cfg host cookies h1
  have hts : cfg.targetCookieName ≠ cfg.sourceCookieName := by
    obtain ⟨c, hc, hcs⟩ := h1
    intro he
    exact h2 c hc (hcs.trans he.symm)
  refine ⟨_, fc, htr, hfc, ?_, ?_⟩
  · rw [List.filter_append]
    have hl : (cookies.filter (fun c => !(c.name == cfg.sourceCookieName))).filter
        (fun c => c.name == cfg.targetCookieName) = [] := by
      rw [List.filter_eq_nil_iff]
      intro c hc
      simp [h2 c (List.mem_filter.mp hc).1]
    rw [hl]
    simp
  · rw [List.filter_append]
    have hl : (cookies.filter (fun c => !(c.name == cfg.sourceCookieName))).filter
        (fun c => c.name == cfg.sourceCookieName) = [] := by
      rw [List.filter_eq_nil_iff]
      intro c hc
      have := (List.mem_filter.mp hc).2
      simp only [Bool.not_eq_true'] at this
      simp [this]
    rw [hl]
    simp [hts]

/-- C2 (amended) witness: request `other=1; s=V` with source name `s` and
target name `t`. -/
theorem transformRequestCookies_unique_target_witness :
    ∃ out fc,
      transformRequestCookies c2cfg "h".data
          [Cookie.mk "other".data "1".data [] [], Cookie.mk "s".data "V".data [] []] =
        some out ∧
      (([Cookie.mk "other".data "1".data [] [],
         Cookie.mk "s".data "V".data [] []].filter
          (fun c => c.name == c2cfg.sourceCookieName)).getLast? = some fc) ∧
      out.filter (fun c => c.name == c2cfg.targetCookieName) =
        [Cookie.mk c2cfg.targetCookieName fc.value c2cfg.path
          (requestCookieDomain c2cfg "h".data)] ∧
      out.filter (fun c => c.name == c2cfg.sourceCookieName) = [] :=
  transformRequestCookies_unique_target c2cfg "h".data
    [Cookie.mk "other".data "1".data [] [], Cookie.mk "s".data "V".data [] []]
    (by decide) (by decide)

/-- The substring `sourceCookieName + "="` used to match response lines
(main.go line 171). -/
def srcPat (cfg : Config) : Str := cfg.sourceCookieName ++ ['=']

/-- The replacement substring `targetCookieName + "="` (main.go line 175). -/
def tgtPat (cfg : Config) : Str := cfg.targetCookieName ++ ['=']

/-- Domain append step on a matched response line (main.go lines 178-180). -/
def domainStep (cfg : Config) (host s : Str) : Str :=
  if cfg.useDynamicDomain && !containsSub s "Domain=".data then
    s ++ "; Domain=".data ++ host
  else s

/-- Path append step (main.go lines 183-185). -/
def pathStep (cfg : Config) (s : Str) : Str :=
  if !(cfg.path == "/".data) && !containsSub s "Path=".data then
    s ++ "; Path=".data ++ cfg.path
  else s

/-- Secure append step (main.go lines 188-190). -/
def secureStep (cfg : Config) (s : Str) : Str :=
  if cfg.secure && !containsSub s "Secure".data then s ++ "; Secure".data else s

/-- HttpOnly append step (main.go lines 191-193). -/
def httpOnlyStep (cfg : Config) (s : Str) : Str :=
  if cfg.httpOnly && !containsSub s "HttpOnly".data then s ++ "; HttpOnly".data else s

/-- SameSite append step (main.go lines 194-196). -/
def sameSiteStep (cfg : Config) (s : Str) : Str :=
  if !(cfg.sameSite == []) && !containsSub s "SameSite=".data then
    s ++ "; SameSite=".data ++ cfg.sameSite
  else s

/-- The attribute-appending sequence applied to a renamed line, in source
order: Domain, Path, Secure, HttpOnly, SameSite (main.go lines 177-196). -/
def appendCookieAttributes (cfg : Config) (host s : Str) : Str :=
  sameSiteStep cfg (httpOnlyStep cfg (secureStep cfg (pathStep cfg (domainStep cfg host s))))

/-- Per-line body of the loop of `transformResponseCookies`
(main.go lines 169-206): rewrite a line when it contains
`sourceCookieName + "="`, pass it through verbatim otherwise. -/
def transformSetCookieHeader (cfg : Config) (host line : Str) : Str :=
  if containsSub line (srcPat cfg) then
    appendCookieAttributes cfg host (replaceFirst line (srcPat cfg) (tgtPat cfg))
  else line

/-- Embedding of `transformResponseCookies` (main.go lines 157-214) on the
list of `Set-Cookie` header lines.  The early return for an empty header set
(line 159) coincides with mapping over the empty list. -/
def transformResponseCookies (cfg : Config) (host : Str) (lines : List Str) : List Str :=
  lines.map (transformSetCookieHeader cfg host)

/-- A function on lines that either leaves its input unchanged or appends a
suffix starting with a semicolon. -/
def SemiAppend (f : Str → Str) : Prop :=
  ∀ t, ∃ r, f t = t ++ r ∧ (r = [] ∨ ∃ u, r = ';' :: u)

theorem semiAppend_comp {f g : Str → Str} (hf : SemiAppend f) (hg : SemiAppend g) :
    SemiAppend (fun t => g (f t)) := by
  intro t
  obtain ⟨r1, h1, hr1⟩ := hf t
  obtain ⟨r2, h2, hr2⟩ := hg (f t)
  refine ⟨r1 ++ r2, by simp only []; rw [h2, h1, List.append_assoc], ?_⟩
  rcases hr1 with rfl | ⟨u, rfl⟩
  · simpa using hr2
  · exact Or.inr ⟨u ++ r2, by simp⟩

theorem domainStep_semiAppend (cfg : Config) (host : Str) :
    SemiAppend (domainStep cfg host) := by
  intro t
  rw [domainStep]
  split
  · exact ⟨"; Domain=".data ++ host, by simp, Or.inr ⟨' ' :: "Domain=".data ++ host, by simp⟩⟩
  · exact ⟨[], by simp, Or.inl rfl⟩

theorem pathStep_semiAppend (cfg : Config) : SemiAppend (pathStep cfg) := by
  intro t
  rw [pathStep]
  split
  · exact ⟨"; Path=".data ++ cfg.path, by simp, Or.inr ⟨' ' :: "Path=".data ++ cfg.path, by simp⟩⟩
  · exact ⟨[], by simp, Or.inl rfl⟩

theorem secureStep_semiAppend (cfg : Config) : SemiAppend (secureStep cfg) := by
  intro t
  rw [secureStep]
  split
  · exact ⟨"; Secure".data, by simp, Or.inr ⟨' ' :: "Secure".data, by decide⟩⟩
  · exact ⟨[], by simp, Or.inl rfl⟩

theorem httpOnlyStep_semiAppend (cfg : Config) : SemiAppend (httpOnlyStep cfg) := by
  intro t
  rw [httpOnlyStep]
  split
  · exact ⟨"; HttpOnly".data, by simp, Or.inr ⟨' ' :: "HttpOnly".data, by decide⟩⟩
  · exact ⟨[], by simp, Or.inl rfl⟩

theorem sameSiteStep_semiAppend (cfg : Config) : SemiAppend (sameSiteStep cfg) := by
  intro t
  rw [sameSiteStep]
  split
  · exact ⟨"; SameSite=".data ++ cfg.sameSite, by simp,
      Or.inr ⟨' ' :: "SameSite=".data ++ cfg.sameSite, by simp⟩⟩
  · exact ⟨[], by simp, Or.inl rfl⟩

theorem tailSteps_semiAppend (cfg : Config) :
    SemiAppend (fun t => sameSiteStep cfg (httpOnlyStep cfg (secureStep cfg (pathStep cfg t)))) :=
  semiAppend_comp
    (semiAppend_comp (semiAppend_comp (pathStep_semiAppend cfg) (secureStep_semiAppend cfg))
      (httpOnlyStep_semiAppend cfg))
    (sameSiteStep_semiAppend cfg)

theorem appendCookieAttributes_semiAppend (cfg : Config) (host : Str) :
    SemiAppend (appendCookieAttributes cfg host) := by
  have h := semiAppend_comp (domainStep_semiAppend cfg host) (tailSteps_semiAppend cfg)
  intro t
  exact h t

theorem tailSteps_append (cfg : Config) (t : Str) :
    ∃ r, sameSiteStep cfg (httpOnlyStep cfg (secureStep cfg (pathStep cfg t))) = t ++ r ∧
      (r = [] ∨ ∃ u, r = ';' :: u) :=
  tailSteps_semiAppend cfg t

theorem appendCookieAttributes_append (cfg : Config) (host s : Str) :
    ∃ r, appendCookieAttributes cfg host s = s ++ r ∧ (r = [] ∨ ∃ u, r = ';' :: u) :=
  appendCookieAttributes_semiAppend cfg host s

theorem map_fix {f : Str → Str} : ∀ l : List Str, (∀ x ∈ l, f x = x) → l.map f = l := by
  intro l h
  induction l with
  | nil => rfl
  | cons a t ih =>
    rw [List.map_cons, h a (by simp), ih (fun x hx => h x (by simp [hx]))]

/-- C3: `transformResponseCookies` works line by line preserving length and
order; a line is rewritten iff it contains the exact substring
`sourceCookieName + "="` anywhere in its text; a matched line has exactly its
first such occurrence replaced by `targetCookieName + "="` with the remainder
of the line preserved (the attribute-append stages then run on the renamed
line); non-matching lines pass through verbatim. -/
theorem transformResponseCookies_line_spec (cfg : Config) (host : Str)
    (lines : List Str) (i : Nat) (l : Str) (hi : lines[i]? = some l) :
    (transformResponseCookies cfg host lines).length = lines.length ∧
    (containsSub l (srcPat cfg) = false →
      (transformResponseCookies cfg host lines)[i]? = some l) ∧
    (containsSub l (srcPat cfg) = true →
      ∃ a b, l = a ++ srcPat cfg ++ b ∧
        (∀ a2 b2, l = a2 ++ srcPat cfg ++ b2 → a.length ≤ a2.length) ∧
        (transformResponseCookies cfg host lines)[i]? =
          some (appendCookieAttributes cfg host (a ++ tgtPat cfg ++ b))) := by
  refine ⟨by simp [transformResponseCookies], ?_, ?_⟩
  · intro hc
    rw [transformResponseCookies, List.getElem?_map, hi]
    simp [transformSetCookieHeader, hc]
  · intro hc
    obtain ⟨a, b, hab, hrep, hmin⟩ := replaceFirst_spec (tgtPat cfg) hc
    refine ⟨a, b, hab, hmin, ?_⟩
    rw [transformResponseCookies, List.getElem?_map, hi]
    simp [transformSetCookieHeader, hc, hrep]

/-- C3 witness: default configuration on the header set
`[flowise_token=x; Path=/, other=1]`, matched line at index 0. -/
theorem transformResponseCookies_line_spec_witness :
    (transformResponseCookies CreateConfig "h".data
        ["flowise_token=x; Path=/".data, "other=1".data]).length =
      (["flowise_token=x; Path=/".data, "other=1".data] : List Str).length ∧
    ∃ a b, "flowise_token=x; Path=/".data = a ++ srcPat CreateConfig ++ b ∧
      (∀ a2 b2, "flowise_token=x; Path=/".data = a2 ++ srcPat CreateConfig ++ b2 →
        a.length ≤ a2.length) ∧
      (transformResponseCookies CreateConfig "h".data
          ["flowise_token=x; Path=/".data, "other=1".data])[0]? =
        some (appendCookieAttributes CreateConfig "h".data (a ++ tgtPat CreateConfig ++ b)) := by
  have h := transformResponseCookies_line_spec CreateConfig "h".data
    ["flowise_token=x; Path=/".data, "other=1".data] 0 "flowise_token=x; Path=/".data
    (by decide)
  exact ⟨h.1, h.2.2 (by decide)⟩

/-- C4 (amended): for a response whose `Set-Cookie` lines contain exactly one
line matching `sourceCookieName + "="` by substring containment, provided the
other lines also lack the substring `targetCookieName + "="` and the rewrite
of the matched line removes every `sourceCookieName + "="` occurrence, the
transformed header set contains no line with `sourceCookieName + "="` and
exactly one line with `targetCookieName + "="`, namely the matched line after
first-occurrence renaming with configured absent attributes appended. -/
theorem transformResponseCookies_single_match (cfg : Config) (host : Str)
    (pre post : List Str) (L : Str)
    (hpre : ∀ l ∈ pre, containsSub l (srcPat cfg) = false ∧
      containsSub l (tgtPat cfg) = false)
    (hpost : ∀ l ∈ post, containsSub l (srcPat cfg) = false ∧
      containsSub l (tgtPat cfg) = false)
    (hL : containsSub L (srcPat cfg) = true)
    (hclean : containsSub (transformSetCookieHeader cfg host L) (srcPat cfg) = false) :
    (∀ l ∈ transformResponseCookies cfg host (pre ++ L :: post),
      containsSub l (srcPat cfg) = false) ∧
    (transformResponseCookies cfg host (pre ++ L :: post)).filter
        (fun l => containsSub l (tgtPat cfg)) = [transformSetCookieHeader cfg host L] ∧
    transformSetCookieHeader cfg host L =
      appendCookieAttributes cfg host (replaceFirst L (srcPat cfg) (tgtPat cfg)) := by
  have hTL : transformSetCookieHeader cfg host L =
      appendCookieAttributes cfg host (replaceFirst L (srcPat cfg) (tgtPat cfg)) := by
    simp [transformSetCookieHeader, hL]
  have hfix : ∀ l, containsSub l (srcPat cfg) = false →
      transformSetCookieHeader cfg host l = l := by
    intro l hl
    simp [transformSetCookieHeader, hl]
  have hmap : transformResponseCookies cfg host (pre ++ L :: post) =
      pre ++ transformSetCookieHeader cfg host L :: post := by
    rw [transformResponseCookies, List.map_append, List.map_cons,
      map_fix pre (fun x hx => hfix x (hpre x hx).1),
      map_fix post (fun x hx => hfix x (hpost x hx).1)]
  have htgt : containsSub (transformSetCookieHeader cfg host L) (tgtPat cfg) = true := by
    obtain ⟨a, b, hab, hrep, _⟩ := replaceFirst_spec (tgtPat cfg) hL
    have h0 : containsSub (replaceFirst L (srcPat cfg) (tgtPat cfg)) (tgtPat cfg) = true := by
      rw [hrep]
      exact containsSub_middle a _ b
    obtain ⟨r, hr, _⟩ :=
      appendCookieAttributes_append cfg host (replaceFirst L (srcPat cfg) (tgtPat cfg))
    rw [hTL, hr]
    exact containsSub_append_left r h0
  refine ⟨?_, ?_, hTL⟩
  · intro l hl
    rw [hmap] at hl
    rcases List.mem_append.mp hl with hp | hp
    · exact (hpre l hp).1
    · rcases List.mem_cons.mp hp with rfl | hp2
      · exact hclean
      · exact (hpost l hp2).1
  · rw [hmap, List.filter_append, List.filter_cons]
    have hfp : pre.filter (fun l => containsSub l (tgtPat cfg)) = [] := by
      rw [List.filter_eq_nil_iff]
      intro l hl
      simp [(hpre l hl).2]
    have hfq : post.filter (fun l => containsSub l (tgtPat cfg)) = [] := by
      rw [List.filter_eq_nil_iff]
      intro l hl
      simp [(hpost l hl).2]
    rw [hfp, hfq]
    simp [htgt]

/-- C4 (amended) witness: default configuration, matched line
`flowise_token=xyz; Path=/` followed by an unrelated line `other=1`, host
`example.com`. -/
theorem transformResponseCookies_single_match_witness :
    (∀ l ∈ transformResponseCookies CreateConfig "example.com".data
        ([] ++ "flowise_token=xyz; Path=/".data :: ["other=1".data]),
      containsSub l (srcPat CreateConfig) = false) ∧
    (transformResponseCookies CreateConfig "example.com".data
        ([] ++ "flowise_token=xyz; Path=/".data :: ["other=1".data])).filter
        (fun l => containsSub l (tgtPat CreateConfig)) =
      [transformSetCookieHeader CreateConfig "example.com".data
        "flowise_token=xyz; Path=/".data] ∧
    transformSetCookieHeader CreateConfig "example.com".data
        "flowise_token=xyz; Path=/".data =
      appendCookieAttributes CreateConfig "example.com".data
        (replaceFirst "flowise_token=xyz; Path=/".data (srcPat CreateConfig)
          (tgtPat CreateConfig)) :=
  transformResponseCookies_single_match CreateConfig "example.com".data
    [] ["other=1".data] "flowise_token=xyz; Path=/".data
    (by decide) (by decide) (by decide) (by decide)

/-- Configuration used by the C4 counterexample: rename cookie `a` to `b`. -/
def c4cfg : Config :=
  { CreateConfig with sourceCookieName := "a".data, targetCookieName := "b".data }

/-- C4 counterexample: the response line `a=a=1` sets a cookie named `a`, yet
after the transformation the rewritten header set still has a line containing
the substring `a=`, because only the first occurrence is replaced. -/
theorem transformResponseCookies_src_remains_counter :
    containsSub "a=a=1".data (srcPat c4cfg) = true ∧
    (transformResponseCookies c4cfg "h".data ["a=a=1".data]).all
      (fun l => !containsSub l (srcPat c4cfg)) = false := by
  decide

/-- C5: on a matched line, after first-occurrence renaming, the attribute
appends happen in exactly the order Domain, Path, Secure, HttpOnly, SameSite,
each under the stated configuration condition and gated by substring
containment on the line built so far. -/
theorem transformSetCookieHeader_attr_order (cfg : Config) (host line : Str)
    (h : containsSub line (srcPat cfg) = true) :
    transformSetCookieHeader cfg host line =
      (let r0 := replaceFirst line (srcPat cfg) (tgtPat cfg)
       let r1 := if cfg.useDynamicDomain = true ∧ containsSub r0 "Domain=".data = false
         then r0 ++ "; Domain=".data ++ host else r0
       let r2 := if cfg.path ≠ "/".data ∧ containsSub r1 "Path=".data = false
         then r1 ++ "; Path=".data ++ cfg.path else r1
       let r3 := if cfg.secure = true ∧ containsSub r2 "Secure".data = false
         then r2 ++ "; Secure".data else r2
       let r4 := if cfg.httpOnly = true ∧ containsSub r3 "HttpOnly".data = false
         then r3 ++ "; HttpOnly".data else r3
       if cfg.sameSite ≠ [] ∧ containsSub r4 "SameSite=".data = false
         then r4 ++ "; SameSite=".data ++ cfg.sameSite else r4) := by
  have hdom : ∀ s, domainStep cfg host s =
      if cfg.useDynamicDomain = true ∧ containsSub s "Domain=".data = false
      then s ++ "; Domain=".data ++ host else s := by
    intro s
    cases hb : cfg.useDynamicDomain <;> cases hcs : containsSub s "Domain=".data <;>
      simp [domainStep, hb, hcs]
  have hpath : ∀ s, pathStep cfg s =
      if cfg.path ≠ "/".data ∧ containsSub s "Path=".data = false
      then s ++ "; Path=".data ++ cfg.path else s := by
    intro s
    by_cases hp : cfg.path = "/".data <;> cases hcs : containsSub s "Path=".data <;>
      simp [pathStep, hp, hcs]
  have hsec : ∀ s, secureStep cfg s =
      if cfg.secure = true ∧ containsSub s "Secure".data = false
      then s ++ "; Secure".data else s := by
    intro s
    cases hb : cfg.secure <;> cases hcs : containsSub s "Secure".data <;>
      simp [secureStep, hb, hcs]
  have hhttp : ∀ s, httpOnlyStep cfg s =
      if cfg.httpOnly = true ∧ containsSub s "HttpOnly".data = false
      then s ++ "; HttpOnly".data else s := by
    intro s
    cases hb : cfg.httpOnly <;> cases hcs : containsSub s "HttpOnly".data <;>
      simp [httpOnlyStep, hb, hcs]
  have hsame : ∀ s, sameSiteStep cfg s =
      if cfg.sameSite ≠ [] ∧ containsSub s "SameSite=".data = false
      then s ++ "; SameSite=".data ++ cfg.sameSite else s := by
    intro s
    by_cases hp : cfg.sameSite = ([] : Str) <;> cases hcs : containsSub s "SameSite=".data <;>
      simp [sameSiteStep, hp, hcs]
  have hTL : transformSetCookieHeader cfg host line =
      appendCookieAttributes cfg host (replaceFirst line (srcPat cfg) (tgtPat cfg)) := by
    simp [transformSetCookieHeader, h]
  rw [hTL, appendCookieAttributes, hsame, hhttp, hsec, hpath, hdom]

/-- C5 witness: default configuration on the matched line `flowise_token=v`. -/
theorem transformSetCookieHeader_attr_order_witness :
    transformSetCookieHeader CreateConfig "h".data "flowise_token=v".data =
      (let r0 := replaceFirst "flowise_token=v".data (srcPat CreateConfig)
        (tgtPat CreateConfig)
       let r1 := if CreateConfig.useDynamicDomain = true ∧
           containsSub r0 "Domain=".data = false
         then r0 ++ "; Domain=".data ++ "h".data else r0
       let r2 := if CreateConfig.path ≠ "/".data ∧ containsSub r1 "Path=".data = false
         then r1 ++ "; Path=".data ++ CreateConfig.path else r1
       let r3 := if CreateConfig.secure = true ∧ containsSub r2 "Secure".data = false
         then r2 ++ "; Secure".data else r2
       let r4 := if CreateConfig.httpOnly = true ∧ containsSub r3 "HttpOnly".data = false
         then r3 ++ "; HttpOnly".data else r3
       if CreateConfig.sameSite ≠ [] ∧ containsSub r4 "SameSite=".data = false
         then r4 ++ "; SameSite=".data ++ CreateConfig.sameSite else r4) :=
  transformSetCookieHeader_attr_order CreateConfig "h".data "flowise_token=v".data
    (by decide)

/-- Configuration used by the C9 theorem: the target name `my_token` embeds
the source matching pattern `token=` once `=` is appended. -/
def c9cfg : Config :=
  { CreateConfig with
    sourceCookieName := "token".data
    targetCookieName := "my_token".data }

/-- C9: the response transformation is not idempotent: with the valid
configuration renaming `token` to `my_token` (whose target name collides with
the source substring matching rule), applying `transformResponseCookies` to
its own output differs from applying it once. -/
theorem transformResponseCookies_not_idempotent :
    (c9cfg.sourceCookieName ≠ [] ∧ c9cfg.targetCookieName ≠ []) ∧
    containsSub (tgtPat c9cfg) (srcPat c9cfg) = true ∧
    transformResponseCookies c9cfg "h".data
        (transformResponseCookies c9cfg "h".data ["token=v".data]) ≠
      transformResponseCookies c9cfg "h".data ["token=v".data] := by
  decide

/-- C10: with `useDynamicDomain` enabled and an empty request host, a matched
response line whose renamed form has no `Domain=` substring gets the literal
text `"; Domain="` appended with an empty domain value (anything appended
after it starts with a semicolon); the request phase instead skips the domain
entirely, leaving the transformed cookie's domain empty. -/
theorem emptyHost_domain_behaviour (cfg : Config) (line : Str)
    (hd : cfg.useDynamicDomain = true)
    (hline : containsSub line (srcPat cfg) = true)
    (hnd : containsSub (replaceFirst line (srcPat cfg) (tgtPat cfg))
      "Domain=".data = false) :
    (∃ rest, transformSetCookieHeader cfg [] line =
        replaceFirst line (srcPat cfg) (tgtPat cfg) ++ "; Domain=".data ++ rest ∧
        (rest = [] ∨ ∃ u, rest = ';' :: u)) ∧
    (∀ cookies out, transformRequestCookies cfg [] cookies = some out →
      ∃ c, out.getLast? = some c ∧ c.name = cfg.targetCookieName ∧ c.domain = []) := by
  constructor
  · have hTL : transformSetCookieHeader cfg [] line =
        appendCookieAttributes cfg [] (replaceFirst line (srcPat cfg) (tgtPat cfg)) := by
      simp [transformSetCookieHeader, hline]
    have hds : domainStep cfg [] (replaceFirst line (srcPat cfg) (tgtPat cfg)) =
        replaceFirst line (srcPat cfg) (tgtPat cfg) ++ "; Domain=".data := by
      simp [domainStep, hd, hnd]
    obtain ⟨r, hr, hsemi⟩ := tailSteps_append cfg
      (replaceFirst line (srcPat cfg) (tgtPat cfg) ++ "; Domain=".data)
    refine ⟨r, ?_, hsemi⟩
    rw [hTL, appendCookieAttributes, hds, hr]
  · intro cookies out hout
    simp only [transformRequestCookies] at hout
    rcases hsc : scanRequestCookies cfg.sourceCookieName cookies with ⟨fst, snd⟩
    rw [hsc] at hout
    cases snd with
    | none => simp at hout
    | some fc =>
      simp only [Option.some.injEq] at hout
      refine ⟨Cookie.mk cfg.targetCookieName fc.value cfg.path
        (requestCookieDomain cfg []), ?_, rfl, ?_⟩
      · rw [← hout]
        exact List.getLast?_concat fst
      · simp [requestCookieDomain]

/-- C10 witness: default configuration, empty host, line `flowise_token=v`. -/
theorem emptyHost_domain_behaviour_witness :
    (∃ rest, transformSetCookieHeader CreateConfig [] "flowise_token=v".data =
        replaceFirst "flowise_token=v".data (srcPat CreateConfig) (tgtPat CreateConfig) ++
          "; Domain=".data ++ rest ∧
        (rest = [] ∨ ∃ u, rest = ';' :: u)) ∧
    (∀ cookies out, transformRequestCookies CreateConfig [] cookies = some out →
      ∃ c, out.getLast? = some c ∧ c.name = CreateConfig.targetCookieName ∧
        c.domain = []) :=
  emptyHost_domain_behaviour CreateConfig "flowise_token=v".data
    (by decide) (by decide) (by decide)

/-- The plugin instance built by `New` (main.go lines 58-62): the wrapped next
handler, the configuration and the middleware name.  The next handler is kept
abstract as a type parameter. -/
structure CookieModifier (α : Type) where
  next : α
  config : Config
  name : Str

/-- Embedding of `New` (main.go lines 45-63): validates the configuration and
either fails with a configuration error or returns the wrapping handler. -/
def New {α : Type} (next : α) (config : Config) (nm : Str) :
    Except Str (CookieModifier α) :=
  if config.sourceCookieName == [] then
    Except.error "sourceCookieName cannot be empty".data
  else if config.targetCookieName == [] then
    Except.error "targetCookieName cannot be empty".data
  else
    Except.ok (CookieModifier.mk next config nm)

/-- C7: `New` fails with a configuration error exactly when `sourceCookieName`
or `targetCookieName` is empty (no handler is produced then), and otherwise
returns the handler wrapping the next handler with the given configuration and
name. -/
theorem New_validation {α : Type} (next : α) (config : Config) (nm : Str) :
    ((∃ e, New next config nm = Except.error e) ↔
      config.sourceCookieName = [] ∨ config.targetCookieName = []) ∧
    (config.sourceCookieName ≠ [] → config.targetCookieName ≠ [] →
      New next config nm = Except.ok (CookieModifier.mk next config nm)) := by
  constructor
  · constructor
    · rintro ⟨e, he⟩
      by_cases h1 : config.sourceCookieName = []
      · exact Or.inl h1
      by_cases h2 : config.targetCookieName = []
      · exact Or.inr h2
      simp [New, h1, h2] at he
    · intro h
      by_cases h1 : config.sourceCookieName = []
      · exact ⟨"sourceCookieName cannot be empty".data, by simp [New, h1]⟩
      rcases h with h | h
      · exact absurd h h1
      · exact ⟨"targetCookieName cannot be empty".data, by simp [New, h1, h]⟩
  · intro h1 h2
    simp [New, h1, h2]

/-- Configuration with an empty source name, used by the C7 witness. -/
def emptySrcCfg : Config := { CreateConfig with sourceCookieName := [] }

/-- C7 witness: the default configuration constructs the wrapping handler and
an empty source name yields a configuration error. -/
theorem New_validation_witness :
    New (0 : Nat) CreateConfig "cm".data =
      Except.ok (CookieModifier.mk 0 CreateConfig "cm".data) ∧
    (∃ e, New (0 : Nat) emptySrcCfg "cm".data = Except.error e) := by
  have h1 := New_validation (0 : Nat) CreateConfig "cm".data
  have h2 := New_validation (0 : Nat) emptySrcCfg "cm".data
  exact ⟨h1.2 (by decide) (by decide), h2.1.mpr (Or.inl rfl)⟩

/-- An observable action of the downstream handler on the wrapped response
writer: mutate a response header, or commit the status code through
`responseWriter.WriteHeader` (main.go lines 150-154). -/
inductive ResponseEvent where
  | addHeader (hname hvalue : Str)
  | writeHeader (code : Nat)

/-- State of the wrapped response writer: the pending `Set-Cookie` header
lines, how many times `transformResponseCookies` has run, and the committed
status codes. -/
structure ResponseState where
  setCookies : List Str
  transformRuns : Nat
  committed : List Nat

/-- One event processed by the wrapped writer: header mutations only update
the header map; `WriteHeader` first runs `transformResponseCookies` and then
commits the status code (main.go lines 150-154). -/
def stepResponse (cfg : Config) (host : Str) (st : ResponseState) :
    ResponseEvent → ResponseState
  | ResponseEvent.addHeader hname hvalue =>
    if hname == "Set-Cookie".data then
      { st with setCookies := st.setCookies ++ [hvalue] }
    else st
  | ResponseEvent.writeHeader code =>
    { setCookies := transformResponseCookies cfg host st.setCookies
      transformRuns := st.transformRuns + 1
      committed := st.committed ++ [code] }

/-- Run of one request/response pass: the downstream handler's events applied
to the fresh wrapped writer. -/
def runResponse (cfg : Config) (host : Str) (events : List ResponseEvent) :
    ResponseState :=
  events.foldl (stepResponse cfg host) (ResponseState.mk [] 0 [])

/-- Recognizer for status-commit events. -/
def isWriteHeaderEvent : ResponseEvent → Bool
  | ResponseEvent.writeHeader _ => true
  | ResponseEvent.addHeader _ _ => false

theorem runResponse_go (cfg : Config) (host : Str) :
    ∀ (evs : List ResponseEvent) (st : ResponseState),
      (evs.foldl (stepResponse cfg host) st).transformRuns =
        st.transformRuns + evs.countP isWriteHeaderEvent := by
  intro evs
  induction evs with
  | nil => intro st; simp
  | cons e t ih =>
    intro st
    cases e with
    | addHeader hn hv =>
      rw [List.foldl_cons, ih]
      have hstep : (stepResponse cfg host st (ResponseEvent.addHeader hn hv)).transformRuns =
          st.transformRuns := by
        simp only [stepResponse]
        split <;> rfl
      rw [hstep]
      simp [List.countP_cons, isWriteHeaderEvent]
    | writeHeader c =>
      rw [List.foldl_cons, ih]
      simp only [stepResponse, List.countP_cons, isWriteHeaderEvent, if_pos]
      omega

/-- C8 (amended): the response transformation runs exactly once per commit of
the status code through the wrapper — at the moment `WriteHeader` is invoked —
and never on a plain header mutation; hence it runs exactly once in a pass iff
the downstream handler commits the status code exactly once. -/
theorem runResponse_transform_count (cfg : Config) (host : Str)
    (events : List ResponseEvent) :
    (runResponse cfg host events).transformRuns = events.countP isWriteHeaderEvent := by
  rw [runResponse, runResponse_go]
  simp

/-- C8 counterexample: a downstream handler that commits the status code twice
makes the wrapper run the response transformation twice within a single
request/response pass, not exactly once. -/
theorem responseTransform_runs_twice_counter :
    (runResponse CreateConfig "h".data
      [ResponseEvent.writeHeader 200, ResponseEvent.writeHeader 200]).transformRuns = 2 ∧
    (2 : Nat) ≠ 1 := by
  decide
